import Mathlib

/-!
Verification development for the Protea supervisor ("Sentinel") repository.

Each Python module relevant to the checked claims is shallowly embedded as
executable Lean definitions, translated directly from the source:

* ring0/sentinel.py      — the per-tick decision logic of the `run` loop
* ring0/heartbeat.py     — `HeartbeatMonitor.read_heartbeat` / `is_alive`
* ring0/git_manager.py   — `GitManager.snapshot` / `rollback` over a model
                           of the git commands it shells out to
* ring1/llm_client.py    — `ClaudeClient.send_message` retry loop
* ring0/evolution_intent.py — `classify_intent`
* ring0/parameter_seed.py   — `generate_params` over an embedding of
                              CPython's Mersenne-Twister `random.Random`
* ring1/telegram_bot.py  — `TelegramBot._handle_command`

Machine floats are modelled as rationals; machine `uint32_t` arithmetic is
Nat arithmetic with explicit reduction modulo 2^32.
-/

namespace Protea

/-! ## Supervisor kernel tick — ring0/sentinel.py, `run` loop body

One iteration of the `while True` loop (sentinel.py lines 165-305) after the
`time.sleep(interval)` and the shared-state update.  The loop body makes two
separate `hb.is_alive()` calls on the decision path: one inside the success
check (`elapsed >= params.max_runtime_sec and hb.is_alive()`, line 202) and
one at the heartbeat death check (`if hb.is_alive(): continue`, line 256);
the heartbeat file can change between the two, so the model records both
observations.

The richer `SentinelState` used by ring1/task_executor.py carries a
`p0_active` event; the `SentinelState` in src's ring1/telegram_bot.py does
not define that field and the sentinel loop never reads any such flag.  The
model still carries `p0Active` as an input so that statements about it can
be expressed; the tick functions below ignore it exactly as the source does.
-/

/-- Control flags read by the sentinel at a tick: `state.pause_event`,
`state.kill_event`, and the task executor's `p0_active` (which the src
sentinel never consults). -/
structure TickFlags where
  pause : Bool
  kill : Bool
  p0Active : Bool
  deriving DecidableEq, Repr

/-- The two `hb.is_alive()` observations made on the decision path of one
loop iteration: at the success check (line 202) and at the death check
(line 256). -/
structure TickObs where
  aliveSuccess : Bool
  aliveDeath : Bool
  deriving DecidableEq, Repr

/-- Which branch of the loop body fires for one tick. -/
inductive TickOutcome where
  /-- `if state.pause_event.is_set(): continue` -/
  | pausedIdle
  /-- `if state.kill_event.is_set():` — clear kill, restart worker, no
  generation advance -/
  | killRestart
  /-- success branch: survived `max_runtime_sec` -/
  | recordSurvived
  /-- `if hb.is_alive(): continue` -/
  | continueRunning
  /-- failure branch: heartbeat lost -/
  | recordDied
  deriving DecidableEq, Repr

/-- Branch selection of sentinel.py lines 188-263, in source order:
pause check, kill check, success check, heartbeat check, death path. -/
def tickOutcome (flags : TickFlags) (elapsed maxRuntime : ℚ) (obs : TickObs) :
    TickOutcome :=
  if flags.pause then .pausedIdle
  else if flags.kill then .killRestart
  else if elapsed ≥ maxRuntime ∧ obs.aliveSuccess then .recordSurvived
  else if obs.aliveDeath then .continueRunning
  else .recordDied

/-- `score = min(elapsed / params.max_runtime_sec, 0.99) if
params.max_runtime_sec > 0 else 0.0` (sentinel.py line 263). -/
def deathScore (elapsed maxRuntime : ℚ) : ℚ :=
  if maxRuntime > 0 then min (elapsed / maxRuntime) (99/100) else 0

/-- A row passed to `fitness.record` for a terminated generation. -/
structure RecordedEntry where
  score : ℚ
  survived : Bool
  deriving DecidableEq, Repr

/-- Observable effects of one tick of the loop body. -/
structure TickEffects where
  /-- the fitness row recorded this tick, if any -/
  record : Option RecordedEntry
  /-- value of the kill event after the tick -/
  killAfter : Bool
  /-- whether `generation += 1` ran this tick -/
  genAdvances : Bool
  /-- whether the kernel invoked `_try_evolve` this tick -/
  attemptsEvolve : Bool
  deriving DecidableEq, Repr

/-- Effects of one loop iteration (sentinel.py lines 188-305).  Both
terminal branches call `_try_evolve` unconditionally; nothing on the path
reads `flags.p0Active`.  The kill branch clears the kill event; the pause
branch leaves it untouched. -/
def tickEffects (flags : TickFlags) (elapsed maxRuntime : ℚ) (obs : TickObs) :
    TickEffects :=
  match tickOutcome flags elapsed maxRuntime obs with
  | .pausedIdle =>
      { record := none, killAfter := flags.kill, genAdvances := false,
        attemptsEvolve := false }
  | .killRestart =>
      { record := none, killAfter := false, genAdvances := false,
        attemptsEvolve := false }
  | .recordSurvived =>
      { record := some { score := 1, survived := true }, killAfter := flags.kill,
        genAdvances := true, attemptsEvolve := true }
  | .continueRunning =>
      { record := none, killAfter := flags.kill, genAdvances := false,
        attemptsEvolve := false }
  | .recordDied =>
      { record := some { score := deathScore elapsed maxRuntime, survived := false },
        killAfter := flags.kill, genAdvances := true, attemptsEvolve := true }

/-! ## Heartbeat monitor — ring0/heartbeat.py

`read_heartbeat` reads the heartbeat file, strips it, splits it into lines
and parses line 0 with Python `int()` and line 1 with Python `float()`;
any `OSError`/`ValueError` (missing file, malformed content) yields
`(None, None)`.  The file is modelled as `Option String` (`none` = read
raises `OSError`); the `os.kill(pid, 0)` probe is modelled by a function
into its three outcome classes: a normal return, an
`OSError`/`ProcessLookupError` (the two classes `is_alive` catches), or an
exception outside that tuple — notably `OverflowError` when the parsed pid
does not fit the C pid type — which `is_alive` does not catch, so
`is_alive` is embedded as an `Except`.  Python
floats are modelled as rationals; `float()` is modelled on finite decimal
literals (the `inf`/`nan` spellings have no rational counterpart).
Character classes are modelled over ASCII plus the Unicode line breaks
Python recognises. -/

/-- Characters Python `str.strip()` removes (ASCII whitespace model). -/
def isPySpace (c : Char) : Bool :=
  c = ' ' || c = '\t' || c = '\n' || c = '\r' || c = '\x0b' || c = '\x0c' ||
  c = '\x1c' || c = '\x1d' || c = '\x1e' || c = '\x1f' || c = '\x85'

/-- `str.strip()` on the character list. -/
def pyStripChars (cs : List Char) : List Char :=
  ((cs.dropWhile isPySpace).reverse.dropWhile isPySpace).reverse

/-- Line-break characters of Python `str.splitlines` (the CR LF pair is
handled separately in `pySplitlinesAux`). -/
def isLineBreak (c : Char) : Bool :=
  c = '\n' || c = '\r' || c = '\x0b' || c = '\x0c' ||
  c = '\x1c' || c = '\x1d' || c = '\x1e' || c = '\x85' ||
  c = ' ' || c = ' '

/-- Worker for `str.splitlines`: a line ends at each break (CR LF counts
once); a final segment is emitted only when nonempty. -/
def pySplitlinesAux : List Char → List Char → List String
  | [], acc => if acc.isEmpty then [] else [String.mk acc.reverse]
  | '\r' :: '\n' :: rest, acc => String.mk acc.reverse :: pySplitlinesAux rest []
  | c :: rest, acc =>
      if isLineBreak c then String.mk acc.reverse :: pySplitlinesAux rest []
      else pySplitlinesAux rest (c :: acc)

/-- `str.splitlines()`. -/
def pySplitlines (cs : List Char) : List String := pySplitlinesAux cs []

/-- Numeric value of a decimal digit character. -/
def digitVal (c : Char) : Nat := c.toNat - '0'.toNat

/-- Digits of a Python integer literal after the first digit: single
underscores are allowed between digits only. -/
def pyDigitsGo : List Char → Nat → Option Nat
  | [], acc => some acc
  | '_' :: c :: rest, acc =>
      if c.isDigit then pyDigitsGo rest (acc * 10 + digitVal c) else none
  | ['_'], _ => none
  | c :: rest, acc =>
      if c.isDigit then pyDigitsGo rest (acc * 10 + digitVal c) else none

/-- Nonempty digit run with Python underscore rules; rejects anything else. -/
def pyNatDigits : List Char → Option Nat
  | [] => none
  | c :: rest => if c.isDigit then pyDigitsGo rest (digitVal c) else none

/-- Python `int(str)`: surrounding whitespace, optional sign, digit run. -/
def pyInt (s : String) : Option Int :=
  match pyStripChars s.toList with
  | '+' :: rest => (pyNatDigits rest).map Int.ofNat
  | '-' :: rest => (pyNatDigits rest).map (fun n => -(n : Int))
  | rest => (pyNatDigits rest).map Int.ofNat

/-- Greedy digit run (value, digit count, leftover); stops before an
underscore that is not followed by a digit. -/
def pyRunGo : List Char → Nat → Nat → Nat × Nat × List Char
  | '_' :: c :: rest, acc, cnt =>
      if c.isDigit then pyRunGo rest (acc * 10 + digitVal c) (cnt + 1)
      else (acc, cnt, '_' :: c :: rest)
  | c :: rest, acc, cnt =>
      if c.isDigit then pyRunGo rest (acc * 10 + digitVal c) (cnt + 1)
      else (acc, cnt, c :: rest)
  | [], acc, cnt => (acc, cnt, [])

/-- A digit run that must start with a digit. -/
def pyRun : List Char → Option (Nat × Nat × List Char)
  | c :: rest => if c.isDigit then some (pyRunGo rest (digitVal c) 1) else none
  | [] => none

/-- Optional exponent part of a Python float literal applied to a signed
mantissa; the whole input must be consumed. -/
def pyFloatExp (sign mant : ℚ) : List Char → Option ℚ
  | [] => some (sign * mant)
  | e :: rest2 =>
      if e = 'e' ∨ e = 'E' then
        let signedRest : Int × List Char :=
          match rest2 with
          | '+' :: r => (1, r)
          | '-' :: r => (-1, r)
          | r => (1, r)
        match pyRun signedRest.2 with
        | some (ev, _, []) =>
            let ex : Int := signedRest.1 * ev
            some (sign * mant *
              (if 0 ≤ ex then ((10 ^ ex.toNat : ℕ) : ℚ)
               else 1 / ((10 ^ (-ex).toNat : ℕ) : ℚ)))
        | _ => none
      else none

/-- Python `float(str)` on finite decimal literals: surrounding whitespace,
optional sign, `digits [. digits] | . digits`, optional exponent. -/
def pyFloat (s : String) : Option ℚ :=
  let cs0 := pyStripChars s.toList
  let signed : ℚ × List Char :=
    match cs0 with
    | '+' :: rest => (1, rest)
    | '-' :: rest => (-1, rest)
    | rest => (1, rest)
  match pyRun signed.2 with
  | some (iv, _, rest) =>
      match rest with
      | '.' :: rest2 =>
          match pyRun rest2 with
          | some (fv, fc, rest3) =>
              pyFloatExp signed.1 ((iv : ℚ) + (fv : ℚ) / ((10 ^ fc : ℕ) : ℚ)) rest3
          | none => pyFloatExp signed.1 (iv : ℚ) rest2
      | _ => pyFloatExp signed.1 (iv : ℚ) rest
  | none =>
      match signed.2 with
      | '.' :: rest2 =>
          match pyRun rest2 with
          | some (fv, fc, rest3) =>
              pyFloatExp signed.1 ((fv : ℚ) / ((10 ^ fc : ℕ) : ℚ)) rest3
          | none => none
      | _ => none

/-- `HeartbeatMonitor.read_heartbeat`: parse the heartbeat file into
`(pid, ts)`; `none` when the file is missing, has fewer than two lines, or
either parse raises `ValueError`. -/
def read_heartbeat (fileContent : Option String) : Option (Int × ℚ) :=
  match fileContent with
  | none => none
  | some raw =>
      let lines := pySplitlines (pyStripChars raw.toList)
      if lines.length < 2 then none
      else
        match pyInt (lines.getD 0 ""), pyFloat (lines.getD 1 "") with
        | some pid, some ts => some (pid, ts)
        | _, _ => none

/-- Outcome of the zero-signal probe `os.kill(pid, 0)`: it can return
normally, raise `OSError` or `ProcessLookupError` (absent process or no
permission — the classes `is_alive` catches), or raise a different
exception: `OverflowError` when the parsed pid does not fit the C pid
type. -/
inductive KillResult where
  | ok
  | procError
  | overflow
  deriving DecidableEq, Repr

/-- An exception escaping `is_alive` (the probe's catch tuple covers only
`OSError` and `ProcessLookupError`). -/
inductive UncaughtExn where
  | overflowError
  deriving DecidableEq, Repr

/-- `HeartbeatMonitor.is_alive`: fresh heartbeat (`now - ts ≤ timeout_sec`)
and a successful `os.kill(pid, 0)` probe.  A missing file, malformed
content, or a probe raising `OSError`/`ProcessLookupError` each return
`False`; a probe raising outside that tuple (`OverflowError` for a pid
beyond the C pid range) is not caught and propagates, which the `Except`
error case records. -/
def is_alive (fileContent : Option String) (timeout_sec now : ℚ)
    (probe : Int → KillResult) : Except UncaughtExn Bool :=
  match read_heartbeat fileContent with
  | none => .ok false
  | some (pid, ts) =>
      if now - ts > timeout_sec then .ok false
      else
        match probe pid with
        | .ok => .ok true
        | .procError => .ok false
        | .overflow => .error .overflowError

/-! ## Theorems: heartbeat (C5) and kernel tick (C1, C2, C3, C10) -/

/-- Helper: a parsed, fresh heartbeat whose pid makes the probe raise an
uncaught exception makes `is_alive` propagate it. -/
theorem is_alive_error_of_overflow (fileContent : Option String)
    (timeout_sec now : ℚ) (probe : Int → KillResult) (pid : Int) (ts : ℚ)
    (h : read_heartbeat fileContent = some (pid, ts))
    (hfresh : now - ts ≤ timeout_sec) (hp : probe pid = .overflow) :
    is_alive fileContent timeout_sec now probe = .error .overflowError := by
  unfold is_alive
  rw [h]
  simp [hp, not_lt.mpr hfresh]

/-- C5 counterexample: a heartbeat file whose pid line parses to an
integer beyond the C pid range (here 10^10) with a fresh timestamp makes
`os.kill(pid, 0)` raise `OverflowError`, which the catch tuple
(`OSError`, `ProcessLookupError`) does not cover: the exception propagates
to the caller instead of yielding `False`.  The probe argument models a
POSIX host where pids above 2^31 - 1 overflow the C pid type and every
in-range pid is simply absent. -/
theorem heartbeat_overflow_pid_raises :
    is_alive (some "10000000000\n100.0") 6 100
        (fun pid => if 2147483647 < pid then .overflow else .procError) =
      .error .overflowError := by
  have hI : pyInt "10000000000" = some 10000000000 := by decide
  have hF : pyFloat "100.0" = some 100 := by
    rw [show pyFloat "100.0" =
        some ((1 : ℚ) * (((100 : ℕ) : ℚ) + ((0 : ℕ) : ℚ) / ((10 ^ 1 : ℕ) : ℚ)))
      from rfl]
    norm_num
  have hread : read_heartbeat (some "10000000000\n100.0") =
      some (10000000000, 100) := by
    unfold read_heartbeat
    dsimp only
    rw [show pySplitlines (pyStripChars ("10000000000\n100.0").toList) =
        ["10000000000", "100.0"] from rfl]
    rw [if_neg (by decide : ¬ (["10000000000", "100.0"].length < 2))]
    rw [show (["10000000000", "100.0"].getD 0 "") = "10000000000" from rfl]
    rw [show (["10000000000", "100.0"].getD 1 "") = "100.0" from rfl]
    rw [hI, hF]
  exact is_alive_error_of_overflow _ _ _ _ _ _ hread (by norm_num) (by norm_num)

/-- C5 amended: `is_alive()` returns `True` iff the heartbeat file exists,
parses to a pid line and a timestamp line, `now - ts ≤ timeout_sec`, and
the zero-signal probe of the pid returns normally; a missing file,
malformed content, or a probe raising `OSError`/`ProcessLookupError`
(absent process) each yield `False` without an exception — but a probe
raising outside the caught tuple (`OverflowError`, pid beyond the C pid
range) propagates to the caller, exactly when the file parses and the
heartbeat is fresh. -/
theorem heartbeat_is_alive_cases (fileContent : Option String)
    (timeout_sec now : ℚ) (probe : Int → KillResult) :
    (is_alive fileContent timeout_sec now probe = .ok true ↔
      ∃ pid ts, read_heartbeat fileContent = some (pid, ts) ∧
        now - ts ≤ timeout_sec ∧ probe pid = .ok) ∧
    (is_alive fileContent timeout_sec now probe = .error .overflowError ↔
      ∃ pid ts, read_heartbeat fileContent = some (pid, ts) ∧
        now - ts ≤ timeout_sec ∧ probe pid = .overflow) ∧
    (read_heartbeat fileContent = none →
      is_alive fileContent timeout_sec now probe = .ok false) := by
  refine ⟨?_, ?_, ?_⟩
  · constructor
    · intro halive
      unfold is_alive at halive
      cases h : read_heartbeat fileContent with
      | none => rw [h] at halive; simp at halive
      | some pt =>
          obtain ⟨pid, ts⟩ := pt
          rw [h] at halive
          by_cases hts : now - ts > timeout_sec
          · simp [hts] at halive
          · cases hp : probe pid with
            | ok => exact ⟨pid, ts, rfl, not_lt.mp hts, hp⟩
            | procError => simp [hts, hp] at halive
            | overflow => simp [hts, hp] at halive
    · rintro ⟨pid, ts, h, hfresh, hp⟩
      unfold is_alive
      rw [h]
      simp [hp, not_lt.mpr hfresh]
  · constructor
    · intro halive
      unfold is_alive at halive
      cases h : read_heartbeat fileContent with
      | none => rw [h] at halive; simp at halive
      | some pt =>
          obtain ⟨pid, ts⟩ := pt
          rw [h] at halive
          by_cases hts : now - ts > timeout_sec
          · simp [hts] at halive
          · cases hp : probe pid with
            | ok => simp [hts, hp] at halive
            | procError => simp [hts, hp] at halive
            | overflow => exact ⟨pid, ts, rfl, not_lt.mp hts, hp⟩
    · rintro ⟨pid, ts, h, hfresh, hp⟩
      unfold is_alive
      rw [h]
      simp [hp, not_lt.mpr hfresh]
  · intro h
    unfold is_alive
    rw [h]

/-- C1 (code-bug evidence): at a tick where the operator-task flag
`p0_active` is set and the generation has survived, the sentinel still
invokes `_try_evolve` and records the generation — the `run` loop never
consults any `p0_active` flag (src's `SentinelState` does not define one),
so evolution is not suppressed. -/
theorem sentinel_evolves_despite_p0_active :
    (tickEffects { pause := false, kill := false, p0Active := true }
        300 300 { aliveSuccess := true, aliveDeath := true }).attemptsEvolve
      = true ∧
    (tickEffects { pause := false, kill := false, p0Active := true }
        300 300 { aliveSuccess := true, aliveDeath := true }).record
      = some { score := 1, survived := true } := by
  constructor <;> decide

/-- C2 counterexample: a tick with `elapsed ≥ max_runtime_sec` whose
heartbeat is already stale at the liveness checks is recorded as died with
score `min(elapsed/max_runtime, 0.99) = 0.99`, not as survived with score
1.0: the success branch requires `hb.is_alive()` to be true. -/
theorem sentinel_stale_at_deadline_records_died :
    tickEffects { pause := false, kill := false, p0Active := false }
        300 300 { aliveSuccess := false, aliveDeath := false } =
      { record := some { score := 99/100, survived := false },
        killAfter := false, genAdvances := true, attemptsEvolve := true } := by
  have hscore : deathScore 300 300 = 99/100 := by
    unfold deathScore
    rw [if_pos (by norm_num), min_def]
    norm_num
  unfold tickEffects
  rw [show tickOutcome { pause := false, kill := false, p0Active := false }
      300 300 { aliveSuccess := false, aliveDeath := false } = .recordDied by decide]
  rw [hscore]

/-- C2 amended: if `elapsed ≥ max_runtime_sec` and the heartbeat is alive at
the success check, the generation is recorded survived with score 1.0, even
when the heartbeat goes stale later in the same tick (the death-check
observation may already be false): the reward check precedes the death
check in the loop body. -/
theorem sentinel_reward_precedes_death (flags : TickFlags)
    (elapsed maxRuntime : ℚ) (obs : TickObs)
    (hpause : flags.pause = false) (hkill : flags.kill = false)
    (helapsed : elapsed ≥ maxRuntime) (halive : obs.aliveSuccess = true) :
    tickOutcome flags elapsed maxRuntime obs = .recordSurvived ∧
    (tickEffects flags elapsed maxRuntime obs).record =
      some { score := 1, survived := true } := by
  have houtcome : tickOutcome flags elapsed maxRuntime obs = .recordSurvived := by
    unfold tickOutcome
    simp [hpause, hkill, helapsed, halive]
  refine ⟨houtcome, ?_⟩
  unfold tickEffects
  rw [houtcome]

/-- Witness for `sentinel_reward_precedes_death`: elapsed 300 ≥ max 300,
alive at the success check, stale by the death check. -/
theorem sentinel_reward_precedes_death_witness :
    tickOutcome { pause := false, kill := false, p0Active := false }
        300 300 { aliveSuccess := true, aliveDeath := false } = .recordSurvived ∧
    (tickEffects { pause := false, kill := false, p0Active := false }
        300 300 { aliveSuccess := true, aliveDeath := false }).record =
      some { score := 1, survived := true } :=
  sentinel_reward_precedes_death _ _ _ _ rfl rfl (by norm_num) rfl

/-- C3 counterexample: with both the pause and kill flags set at the same
tick, the kernel idles (pause branch) and the kill flag is left pending —
it is not cleared and no restart happens this tick. -/
theorem sentinel_pause_preempts_kill :
    tickOutcome { pause := true, kill := true, p0Active := false }
        0 300 { aliveSuccess := true, aliveDeath := true } = .pausedIdle ∧
    (tickEffects { pause := true, kill := true, p0Active := false }
        0 300 { aliveSuccess := true, aliveDeath := true }).killAfter = true ∧
    (tickEffects { pause := true, kill := true, p0Active := false }
        0 300 { aliveSuccess := true, aliveDeath := true }).record = none ∧
    (tickEffects { pause := true, kill := true, p0Active := false }
        0 300 { aliveSuccess := true, aliveDeath := true }).genAdvances
      = false := by
  refine ⟨?_, ?_, ?_, ?_⟩ <;> decide

/-- C3 amended: pause wins over kill.  Whenever pause is set the tick idles
and leaves the kill flag untouched; on a tick where pause is clear and kill
is set, the kernel clears kill and restarts the worker without recording a
fitness row or advancing the generation. -/
theorem sentinel_pause_wins_kill_deferred (flags : TickFlags)
    (elapsed maxRuntime : ℚ) (obs : TickObs) :
    (flags.pause = true →
      tickOutcome flags elapsed maxRuntime obs = .pausedIdle ∧
      (tickEffects flags elapsed maxRuntime obs).killAfter = flags.kill ∧
      (tickEffects flags elapsed maxRuntime obs).record = none) ∧
    (flags.pause = false → flags.kill = true →
      tickOutcome flags elapsed maxRuntime obs = .killRestart ∧
      (tickEffects flags elapsed maxRuntime obs).killAfter = false ∧
      (tickEffects flags elapsed maxRuntime obs).record = none ∧
      (tickEffects flags elapsed maxRuntime obs).genAdvances = false) := by
  constructor
  · intro hpause
    have houtcome : tickOutcome flags elapsed maxRuntime obs = .pausedIdle := by
      unfold tickOutcome; simp [hpause]
    refine ⟨houtcome, ?_, ?_⟩ <;> · unfold tickEffects; rw [houtcome]
  · intro hpause hkill
    have houtcome : tickOutcome flags elapsed maxRuntime obs = .killRestart := by
      unfold tickOutcome; simp [hpause, hkill]
    refine ⟨houtcome, ?_, ?_, ?_⟩ <;> · unfold tickEffects; rw [houtcome]

/-- Witness for `sentinel_pause_wins_kill_deferred`: both conjuncts applied
at concrete flag settings. -/
theorem sentinel_pause_wins_kill_deferred_witness :
    (tickOutcome { pause := true, kill := true, p0Active := false }
        0 300 { aliveSuccess := true, aliveDeath := true } = .pausedIdle) ∧
    (tickOutcome { pause := false, kill := true, p0Active := false }
        0 300 { aliveSuccess := true, aliveDeath := true } = .killRestart) :=
  ⟨((sentinel_pause_wins_kill_deferred _ 0 300 _).1 rfl).1,
   ((sentinel_pause_wins_kill_deferred _ 0 300 _).2 rfl rfl).1⟩

/-- The death-branch score never reaches 0.99's ceiling: it is capped by the
`min` and guarded against `max_runtime_sec = 0`. -/
theorem deathScore_le (elapsed maxRuntime : ℚ) :
    deathScore elapsed maxRuntime ≤ 99/100 := by
  unfold deathScore
  split
  · exact min_le_right _ _
  · norm_num

/-- C10: every fitness row the kernel records with `survived = false` has
score exactly `deathScore elapsed maxRuntime`
(`min(elapsed/max_runtime, 0.99)`, and `0` when `max_runtime = 0`, so the
division is guarded), hence at most `0.99` and strictly below the `1.0`
recorded for survived generations. -/
theorem sentinel_died_score_below_one (flags : TickFlags)
    (elapsed maxRuntime : ℚ) (obs : TickObs) :
    (∀ entry, (tickEffects flags elapsed maxRuntime obs).record = some entry →
      (entry.survived = false →
        entry.score = deathScore elapsed maxRuntime ∧
        entry.score ≤ 99/100 ∧ entry.score < 1) ∧
      (entry.survived = true → entry.score = 1)) ∧
    deathScore elapsed 0 = 0 := by
  constructor
  · intro entry hentry
    unfold tickEffects at hentry
    cases houtcome : tickOutcome flags elapsed maxRuntime obs <;>
      rw [houtcome] at hentry <;> simp at hentry
    · constructor
      · intro hsurv; rw [← hentry] at hsurv; simp at hsurv
      · intro _; rw [← hentry]
    · constructor
      · intro _
        rw [← hentry]
        refine ⟨rfl, deathScore_le elapsed maxRuntime, ?_⟩
        calc deathScore elapsed maxRuntime ≤ 99/100 := deathScore_le _ _
          _ < 1 := by norm_num
      · intro hsurv; rw [← hentry] at hsurv; simp at hsurv
  · unfold deathScore; norm_num

/-- Witness for `sentinel_died_score_below_one`: a concrete died tick
(elapsed 100 of max 300) records score 1/3 ≤ 0.99 < 1. -/
theorem sentinel_died_score_below_one_witness :
    ((1 : ℚ)/3 = deathScore 100 300 ∧ (1 : ℚ)/3 ≤ 99/100 ∧ (1 : ℚ)/3 < 1) ∧
    deathScore 100 0 = 0 :=
  ⟨((sentinel_died_score_below_one
        { pause := false, kill := false, p0Active := false } 100 300
        { aliveSuccess := false, aliveDeath := false }).1
      { score := 1/3, survived := false }
      (by
        have hscore : deathScore 100 300 = 1/3 := by
          unfold deathScore
          rw [if_pos (by norm_num), min_def]
          norm_num
        unfold tickEffects
        rw [show tickOutcome { pause := false, kill := false, p0Active := false }
            100 300 { aliveSuccess := false, aliveDeath := false } = .recordDied by
          decide]
        rw [hscore])).1 rfl,
   (sentinel_died_score_below_one
        { pause := false, kill := false, p0Active := false } 100 300
        { aliveSuccess := false, aliveDeath := false }).2⟩

/-! ## Revision store — ring0/git_manager.py over a model of git

`GitManager` shells out to the git CLI.  The repository state is modelled
as a list of commits (insertion-ordered, with Nat ids standing for the
opaque hashes), a HEAD pointer, an index and a working tree; trees are
association lists keyed by path.  Each git command the source runs is given
its own definition, and `snapshot` / `rollback` compose them exactly as
`GitManager.snapshot` (`add -A`, `status --porcelain`, `commit`,
`rev-parse HEAD`) and `GitManager.rollback` (`reset <hash> -- .`,
`checkout -- .`, `clean -fd`) do. -/

/-- A file tree: association list from path to content (first binding
wins). -/
abbrev FileTree := List (String × String)

/-- Content of a path in a tree. -/
def treeLookup (t : FileTree) (path : String) : Option String :=
  (t.find? (fun kv => kv.1 == path)).map (fun kv => kv.2)

/-- Write a file into a tree (used to build test scenarios). -/
def treeSet (t : FileTree) (path content : String) : FileTree :=
  (path, content) :: t.filter (fun kv => !(kv.1 == path))

/-- Extensional equality of two trees as path-to-content maps. -/
def treeEqOn (a b : FileTree) : Bool :=
  (a ++ b).all (fun kv => treeLookup a kv.1 == treeLookup b kv.1)

/-- A git commit: id, message, and the snapshotted tree. -/
structure Commit where
  hash : Nat
  message : String
  tree : FileTree
  deriving DecidableEq, Repr

/-- A git repository as `GitManager` manipulates it. -/
structure Repo where
  commits : List Commit
  head : Option Nat
  index : FileTree
  worktree : FileTree
  nextId : Nat
  deriving DecidableEq, Repr

/-- Resolve a commit hash in the repository. -/
def lookupCommit (r : Repo) (h : Nat) : Option Commit :=
  r.commits.find? (fun c => c.hash == h)

/-- The tree of HEAD (empty before the first commit). -/
def headTree (r : Repo) : FileTree :=
  match r.head with
  | none => []
  | some h =>
      match lookupCommit r h with
      | some c => c.tree
      | none => []

/-- `GitManager.snapshot`: stage everything (`git add -A`); if nothing is
staged relative to HEAD (`git status --porcelain` empty) return the current
HEAD hash unchanged, else commit and return the new hash.  The returned
hash is `none` exactly when `rev-parse HEAD` would fail (empty repo with a
clean tree). -/
def snapshot (r : Repo) (message : String) : Repo × Option Nat :=
  let staged : Repo := { r with index := r.worktree }
  if treeEqOn staged.index (headTree staged) then
    (staged, staged.head)
  else
    let c : Commit :=
      { hash := staged.nextId, message := message, tree := staged.index }
    ({ staged with
        commits := staged.commits ++ [c],
        head := some c.hash,
        nextId := staged.nextId + 1 },
      some c.hash)

/-- `git reset <commit> -- .`: reset the index to the commit's tree without
moving HEAD. -/
def gitResetPathsTo (r : Repo) (tree : FileTree) : Repo :=
  { r with index := tree }

/-- `git checkout -- .`: restore every indexed path in the working tree
from the index; paths absent from the index are left in place
(now untracked). -/
def gitCheckoutIndex (r : Repo) : Repo :=
  { r with worktree :=
      r.index ++ r.worktree.filter (fun kv => (treeLookup r.index kv.1).isNone) }

/-- `git clean -fd`: delete untracked files (in the working tree but not in
the index). -/
def gitCleanUntracked (r : Repo) : Repo :=
  { r with worktree :=
      r.worktree.filter (fun kv => (treeLookup r.index kv.1).isSome) }

/-- `GitManager.rollback`: `reset <hash> -- .`, `checkout -- .`,
`clean -fd`; `none` when the hash does not resolve (the git call raises
`CalledProcessError`). -/
def rollback (r : Repo) (commit_hash : Nat) : Option Repo :=
  match lookupCommit r commit_hash with
  | none => none
  | some c => some (gitCleanUntracked (gitCheckoutIndex (gitResetPathsTo r c.tree)))

/-- A path bound in a tree always resolves. -/
theorem treeLookup_isSome_of_mem {t : FileTree} {kv : String × String}
    (hmem : kv ∈ t) : (treeLookup t kv.1).isSome = true := by
  induction t with
  | nil => cases hmem
  | cons hd tl ih =>
      by_cases hhd : (hd.1 == kv.1) = true
      · simp [treeLookup, List.find?_cons, hhd]
      · rcases List.mem_cons.mp hmem with hkv | hkv
        · subst hkv; simp at hhd
        · have hih := ih hkv
          simpa [treeLookup, List.find?_cons, hhd] using hih

/-- The working tree after the reset/checkout/clean sequence is exactly the
target commit's tree. -/
theorem rollback_worktree (r : Repo) (c : Commit) :
    (gitCleanUntracked (gitCheckoutIndex (gitResetPathsTo r c.tree))).worktree
      = c.tree := by
  simp only [gitCleanUntracked, gitCheckoutIndex, gitResetPathsTo]
  rw [List.filter_append]
  have h1 : c.tree.filter (fun kv => (treeLookup c.tree kv.1).isSome) = c.tree :=
    List.filter_eq_self.mpr (fun kv hkv => treeLookup_isSome_of_mem hkv)
  have h2 : (r.worktree.filter (fun kv => (treeLookup c.tree kv.1).isNone)).filter
      (fun kv => (treeLookup c.tree kv.1).isSome) = [] := by
    rw [List.filter_eq_nil_iff]
    intro kv hkv
    have hq := (List.mem_filter.mp hkv).2
    rw [Option.isNone_iff_eq_none] at hq
    simp [hq]
  rw [h1, h2, List.append_nil]

/-- C6: `rollback(r)` restores the working tree to exactly the tree of the
named revision — files created after it are absent, files present at it are
restored — while HEAD and the commit list are untouched, so later revisions
stay reachable. -/
theorem git_rollback_removes_later_files (r : Repo) (h : Nat) (c : Commit)
    (hc : lookupCommit r h = some c) :
    ∃ r2, rollback r h = some r2 ∧
      r2.worktree = c.tree ∧
      r2.head = r.head ∧
      r2.commits = r.commits ∧
      (∀ f, treeLookup c.tree f = none → treeLookup r2.worktree f = none) := by
  refine ⟨_, ?_, rollback_worktree r c, rfl, rfl, ?_⟩
  · unfold rollback; rw [hc]
  · intro f hf
    rw [rollback_worktree r c]
    exact hf

/-- Scenario repo for the witness: a worktree holding only keep.txt. -/
def gitRepo0 : Repo :=
  { commits := [], head := none, index := [],
    worktree := [("keep.txt", "k")], nextId := 0 }

/-- After `snapshot("v1")`. -/
def gitRepo1 : Repo := (snapshot gitRepo0 "v1").1

/-- After creating extra.txt. -/
def gitRepo1b : Repo :=
  { gitRepo1 with worktree := treeSet gitRepo1.worktree "extra.txt" "x" }

/-- After `snapshot("v2")`. -/
def gitRepo2 : Repo := (snapshot gitRepo1b "v2").1

/-- Witness for `git_rollback_removes_later_files`: snapshot v1 with
keep.txt, create extra.txt, snapshot v2, rollback to v1 — keep.txt exists,
extra.txt does not, HEAD still points at v2 and v2 stays reachable. -/
theorem git_rollback_removes_later_files_witness :
    ∃ r2, rollback gitRepo2 0 = some r2 ∧
      treeLookup r2.worktree "keep.txt" = some "k" ∧
      treeLookup r2.worktree "extra.txt" = none ∧
      r2.head = some 1 ∧
      (lookupCommit r2 1).isSome = true := by
  obtain ⟨r2, hroll, hwt, hhead, hcommits, habs⟩ :=
    git_rollback_removes_later_files gitRepo2 0
      { hash := 0, message := "v1", tree := [("keep.txt", "k")] } (by decide)
  refine ⟨r2, hroll, ?_, ?_, ?_, ?_⟩
  · rw [hwt]; decide
  · rw [hwt]; decide
  · rw [hhead]; decide
  · unfold lookupCommit; rw [hcommits]; decide

/-! ## LLM client — ring1/llm_client.py, `ClaudeClient.send_message`

The loop `for attempt in range(_MAX_RETRIES)` issues HTTP attempts; an
`HTTPError` with a retryable code, or a `URLError`, is retried after
`_BASE_DELAY * 2 ** attempt` seconds while `attempt < _MAX_RETRIES - 1`;
anything else raises `LLMError` at once.  The network is modelled as a
stream `rs : Nat → AttemptResult` giving what the n-th request attempt
would yield; the embedding returns the number of attempts made, the sleep
delays taken, and the final outcome. -/

/-- `_RETRYABLE_CODES` -/
def retryableCodes : List Nat := [429, 500, 502, 503, 529]

/-- `_MAX_RETRIES` -/
def maxRetries : Nat := 3

/-- `_BASE_DELAY * 2 ** attempt` in whole seconds (`_BASE_DELAY = 2.0`). -/
def retryDelay (attempt : Nat) : Nat := 2 * 2 ^ attempt

/-- What one HTTP attempt yields: a response whose first content block is
text, a response with no text block, an `HTTPError` carrying a status code,
or a `URLError`. -/
inductive AttemptResult where
  | okText (text : String)
  | okNoText
  | httpErr (code : Nat)
  | netErr
  deriving DecidableEq, Repr

/-- The distinct `LLMError` raises of `send_message`. -/
inductive LLMFail where
  | noText
  | http (code : Nat)
  | network
  | exhausted
  deriving DecidableEq, Repr

/-- Trace of one `send_message` call. -/
structure SendTrace where
  attempts : Nat
  delays : List Nat
  result : Except LLMFail String

/-- An attempt outcome the loop is willing to retry. -/
def transient : AttemptResult → Bool
  | .httpErr c => retryableCodes.contains c
  | .netErr => true
  | _ => false

/-- The retry loop body: `fuel` is the number of `range(_MAX_RETRIES)`
iterations left and `i` the 0-based attempt index. -/
def sendAux (rs : Nat → AttemptResult) : Nat → Nat → SendTrace
  | 0, i => { attempts := i, delays := [], result := .error .exhausted }
  | fuel + 1, i =>
      match rs i with
      | .okText t => { attempts := i + 1, delays := [], result := .ok t }
      | .okNoText => { attempts := i + 1, delays := [], result := .error .noText }
      | .httpErr c =>
          if retryableCodes.contains c ∧ i < maxRetries - 1 then
            let t := sendAux rs fuel (i + 1)
            { attempts := t.attempts, delays := retryDelay i :: t.delays,
              result := t.result }
          else { attempts := i + 1, delays := [], result := .error (.http c) }
      | .netErr =>
          if i < maxRetries - 1 then
            let t := sendAux rs fuel (i + 1)
            { attempts := t.attempts, delays := retryDelay i :: t.delays,
              result := t.result }
          else { attempts := i + 1, delays := [], result := .error .network }

/-- `ClaudeClient.send_message` against the attempt stream `rs`. -/
def send_message (rs : Nat → AttemptResult) : SendTrace :=
  sendAux rs maxRetries 0

/-- `sentinel._try_evolve`: returns whether new code was written; every
exception raised inside (LLMError included) is caught and mapped to
`False`, so nothing propagates to the supervisor loop. -/
def tryEvolveOutcome : Except String Bool → Bool
  | .ok wrote => wrote
  | .error _ => false

/-- Loop invariant of `sendAux` at every reachable `(fuel, i)`: attempt
count bounds, the delay schedule, that only transient outcomes are retried,
and fail-fast on non-retryable HTTP codes. -/
theorem sendAux_inv (rs : Nat → AttemptResult) :
    ∀ fuel i, i + fuel = 3 → i < 3 →
      i + 1 ≤ (sendAux rs fuel i).attempts ∧
      (sendAux rs fuel i).attempts ≤ 3 ∧
      (sendAux rs fuel i).delays =
        (List.range' i ((sendAux rs fuel i).attempts - 1 - i)).map retryDelay ∧
      (∀ j, i ≤ j → j + 1 < (sendAux rs fuel i).attempts →
        transient (rs j) = true) ∧
      (∀ j c, i ≤ j → j < (sendAux rs fuel i).attempts → rs j = .httpErr c →
        retryableCodes.contains c = false →
        (sendAux rs fuel i).attempts = j + 1 ∧
        (sendAux rs fuel i).result = .error (.http c)) := by
  intro fuel
  induction fuel with
  | zero =>
      intro i hsum hlt
      omega
  | succ n ih =>
      intro i hsum hlt
      cases hri : rs i with
      | okText t =>
          have hunf : sendAux rs (n + 1) i =
              { attempts := i + 1, delays := [], result := .ok t } := by
            simp [sendAux, hri]
          rw [hunf]
          dsimp only
          refine ⟨le_refl _, by omega, by simp, ?_, ?_⟩
          · intro j hij hjlt
            omega
          · intro j c hij hjlt hrs _
            have hji : j = i := by omega
            rw [hji, hri] at hrs
            cases hrs
      | okNoText =>
          have hunf : sendAux rs (n + 1) i =
              { attempts := i + 1, delays := [], result := .error .noText } := by
            simp [sendAux, hri]
          rw [hunf]
          dsimp only
          refine ⟨le_refl _, by omega, by simp, ?_, ?_⟩
          · intro j hij hjlt
            omega
          · intro j c hij hjlt hrs _
            have hji : j = i := by omega
            rw [hji, hri] at hrs
            cases hrs
      | httpErr c =>
          by_cases hcond : retryableCodes.contains c = true ∧ i < maxRetries - 1
          · obtain ⟨h1, h2, h3, h4, h5⟩ := ih (i + 1) (by omega)
              (by unfold maxRetries at hcond; omega)
            have hunf : sendAux rs (n + 1) i =
                { attempts := (sendAux rs n (i + 1)).attempts,
                  delays := retryDelay i :: (sendAux rs n (i + 1)).delays,
                  result := (sendAux rs n (i + 1)).result } := by
              simp only [sendAux, hri]
              rw [if_pos hcond]
            rw [hunf]
            dsimp only
            refine ⟨by omega, h2, ?_, ?_, ?_⟩
            · have hlen : (sendAux rs n (i + 1)).attempts - 1 - i =
                  ((sendAux rs n (i + 1)).attempts - 1 - (i + 1)) + 1 := by omega
              rw [h3, hlen, List.range']
              rfl
            · intro j hij hjlt
              rcases Nat.eq_or_lt_of_le hij with hji | hji
              · rw [← hji, hri]
                show retryableCodes.contains c = true
                exact hcond.1
              · exact h4 j hji hjlt
            · intro j c2 hij hjlt hrs hnc
              rcases Nat.eq_or_lt_of_le hij with hji | hji
              · rw [← hji, hri] at hrs
                cases hrs
                rw [hcond.1] at hnc
                cases hnc
              · exact h5 j c2 hji hjlt hrs hnc
          · have hunf : sendAux rs (n + 1) i =
                { attempts := i + 1, delays := [],
                  result := .error (.http c) } := by
              simp only [sendAux, hri]
              rw [if_neg hcond]
            rw [hunf]
            dsimp only
            refine ⟨le_refl _, by omega, by simp, ?_, ?_⟩
            · intro j hij hjlt
              omega
            · intro j c2 hij hjlt hrs hnc
              have hji : j = i := by omega
              subst hji
              rw [hri] at hrs
              cases hrs
              exact ⟨rfl, rfl⟩
      | netErr =>
          by_cases hcond : i < maxRetries - 1
          · obtain ⟨h1, h2, h3, h4, h5⟩ := ih (i + 1) (by omega)
              (by unfold maxRetries at hcond; omega)
            have hunf : sendAux rs (n + 1) i =
                { attempts := (sendAux rs n (i + 1)).attempts,
                  delays := retryDelay i :: (sendAux rs n (i + 1)).delays,
                  result := (sendAux rs n (i + 1)).result } := by
              simp only [sendAux, hri]
              rw [if_pos hcond]
            rw [hunf]
            dsimp only
            refine ⟨by omega, h2, ?_, ?_, ?_⟩
            · have hlen : (sendAux rs n (i + 1)).attempts - 1 - i =
                  ((sendAux rs n (i + 1)).attempts - 1 - (i + 1)) + 1 := by omega
              rw [h3, hlen, List.range']
              rfl
            · intro j hij hjlt
              rcases Nat.eq_or_lt_of_le hij with hji | hji
              · rw [← hji, hri]
                rfl
              · exact h4 j hji hjlt
            · intro j c2 hij hjlt hrs hnc
              rcases Nat.eq_or_lt_of_le hij with hji | hji
              · rw [← hji, hri] at hrs
                cases hrs
              · exact h5 j c2 hji hjlt hrs hnc
          · have hunf : sendAux rs (n + 1) i =
                { attempts := i + 1, delays := [], result := .error .network } := by
              simp only [sendAux, hri]
              rw [if_neg hcond]
            rw [hunf]
            dsimp only
            refine ⟨le_refl _, by omega, by simp, ?_, ?_⟩
            · intro j hij hjlt
              omega
            · intro j c2 hij hjlt hrs _
              have hji : j = i := by omega
              rw [hji, hri] at hrs
              cases hrs

/-- C7: `send_message` retries only on the transient status codes
429/500/502/503/529 or network errors, sleeps `2 * 2 ^ attempt` seconds
before each retry, performs at most 3 retries after the initial attempt,
and fails fast (no further attempts, immediate `LLMError`) on any other
HTTP status; and the evolution path maps every failure to a non-fatal
`False` result instead of letting an exception reach the supervisor loop. -/
theorem llm_send_message_retry_policy (rs : Nat → AttemptResult) :
    (send_message rs).attempts - 1 ≤ 3 ∧
    (∀ j, j + 1 < (send_message rs).attempts → transient (rs j) = true) ∧
    ((send_message rs).delays =
      (List.range ((send_message rs).attempts - 1)).map retryDelay) ∧
    (∀ j c, j < (send_message rs).attempts → rs j = .httpErr c →
      retryableCodes.contains c = false →
      (send_message rs).attempts = j + 1 ∧
      (send_message rs).result = .error (.http c)) ∧
    (∀ emsg, tryEvolveOutcome (.error emsg) = false) := by
  obtain ⟨h1, h2, h3, h4, h5⟩ := sendAux_inv rs 3 0 rfl (by omega)
  refine ⟨?_, ?_, ?_, ?_, fun _ => rfl⟩
  · show (sendAux rs 3 0).attempts - 1 ≤ 3
    omega
  · intro j hj
    exact h4 j (Nat.zero_le j) hj
  · show (sendAux rs 3 0).delays =
      (List.range ((sendAux rs 3 0).attempts - 1)).map retryDelay
    rw [h3, List.range_eq_range', Nat.sub_zero]
  · intro j c hj hrs hnc
    exact h5 j c (Nat.zero_le j) hj hrs hnc

/-- Witness for `llm_send_message_retry_policy`: a first attempt answered
with HTTP 404 is not retried — one attempt, immediate `LLMError`. -/
theorem llm_send_message_retry_policy_witness :
    (send_message (fun n => if n = 0 then .httpErr 404 else .okText "ok")).attempts
        = 0 + 1 ∧
    (send_message (fun n => if n = 0 then .httpErr 404 else .okText "ok")).result
        = .error (.http 404) :=
  (llm_send_message_retry_policy
      (fun n => if n = 0 then .httpErr 404 else .okText "ok")).2.2.2.1
    0 404 (by decide) (by decide) (by decide)

/-! ## Intent classifier — ring0/evolution_intent.py

`classify_intent` is a pure function of
`(survived, is_plateaued, persistent_errors, crash_logs, directive)`.
`_extract_error_signals` scans the first three crash logs with the pattern
matching word-boundary-delimited tokens ending in Error or Exception; since
both boundaries must fall outside the token, a match is exactly a maximal
word-character run with that suffix, taken whole.  The word class is
modelled over ASCII. -/

/-- Python string slicing `s[:n]` (by code point, as in Python). -/
def pyTake (n : Nat) (s : String) : String := String.mk (s.toList.take n)

/-- `str.endswith` at the character level. -/
def strEndsWith (s suffix : String) : Bool :=
  suffix.toList.isSuffixOf s.toList

/-- A crash-log entry; the source reads only its content key
(`log_entry.get` with default empty). -/
structure CrashLog where
  content : String
  deriving DecidableEq, Repr

/-- Word characters (ASCII model): letters, digits, underscore. -/
def isWordChar (c : Char) : Bool := c.isAlpha || c.isDigit || c = '_'

/-- Maximal word-character runs of a character list, in order. -/
def wordRunsAux : List Char → List Char → List String
  | [], acc => if acc.isEmpty then [] else [String.mk acc.reverse]
  | c :: rest, acc =>
      if isWordChar c then wordRunsAux rest (c :: acc)
      else if acc.isEmpty then wordRunsAux rest []
      else String.mk acc.reverse :: wordRunsAux rest []

/-- Maximal word runs of a string. -/
def wordRuns (s : String) : List String := wordRunsAux s.toList []

/-- The regex matches on one crash-log content: maximal word runs ending in
Error or Exception. -/
def errorTokens (s : String) : List String :=
  (wordRuns s).filter (fun w => strEndsWith w "Error" || strEndsWith w "Exception")

/-- First-occurrence deduplication with the `seen` set threaded through. -/
def dedupFirstAux : List String → List String → List String
  | [], _ => []
  | tok :: rest, seen =>
      if seen.contains tok then dedupFirstAux rest seen
      else tok :: dedupFirstAux rest (tok :: seen)

/-- `_extract_error_signals`: distinct error-class tokens from the first 3
crash logs, in first-occurrence order (the `seen` set is shared across the
logs). -/
def extract_error_signals (crash_logs : List CrashLog) : List String :=
  dedupFirstAux (((crash_logs.take 3).map (fun l => errorTokens l.content)).flatten) []

/-- The dict `classify_intent` returns. -/
structure IntentResult where
  intent : String
  signals : List String
  deriving DecidableEq, Repr

/-- `classify_intent`, branch for branch from the source. -/
def classify_intent (survived is_plateaued : Bool)
    (persistent_errors : List String) (crash_logs : List CrashLog)
    (directive : String) : IntentResult :=
  if directive ≠ "" then
    { intent := "adapt", signals := ["directive: " ++ pyTake 80 directive] }
  else if survived = false then
    let signals := extract_error_signals crash_logs ++
      (persistent_errors.take 3).map (fun e => pyTake 120 e)
    { intent := "repair",
      signals := if signals.isEmpty then ["crashed"] else signals }
  else if persistent_errors ≠ [] then
    { intent := "repair",
      signals := (persistent_errors.take 3).map (fun e => pyTake 120 e) }
  else if is_plateaued then
    { intent := "explore", signals := ["plateau"] }
  else
    { intent := "optimize", signals := ["survived"] }

/-- C8: `classify_intent` is a first-match-wins priority over its inputs:
a non-empty directive gives adapt with the single truncated directive
signal; otherwise crashed runs give repair with the distinct error tokens
of the first 3 crash logs followed by the first 3 persistent errors
truncated to 120 chars (the single signal crashed when both lists are
empty); otherwise non-empty persistent errors give repair; otherwise a
plateau gives explore; otherwise optimize. -/
theorem classify_intent_priority (survived is_plateaued : Bool)
    (persistent_errors : List String) (crash_logs : List CrashLog)
    (directive : String) :
    (directive ≠ "" →
      classify_intent survived is_plateaued persistent_errors crash_logs
          directive =
        { intent := "adapt",
          signals := ["directive: " ++ pyTake 80 directive] }) ∧
    (directive = "" → survived = false →
      classify_intent survived is_plateaued persistent_errors crash_logs
          directive =
        { intent := "repair",
          signals :=
            if (extract_error_signals crash_logs ++
                (persistent_errors.take 3).map (fun e => pyTake 120 e)).isEmpty
            then ["crashed"]
            else extract_error_signals crash_logs ++
              (persistent_errors.take 3).map (fun e => pyTake 120 e) }) ∧
    (directive = "" → survived = true → persistent_errors ≠ [] →
      classify_intent survived is_plateaued persistent_errors crash_logs
          directive =
        { intent := "repair",
          signals := (persistent_errors.take 3).map (fun e => pyTake 120 e) }) ∧
    (directive = "" → survived = true → persistent_errors = [] →
      is_plateaued = true →
      classify_intent survived is_plateaued persistent_errors crash_logs
          directive = { intent := "explore", signals := ["plateau"] }) ∧
    (directive = "" → survived = true → persistent_errors = [] →
      is_plateaued = false →
      classify_intent survived is_plateaued persistent_errors crash_logs
          directive = { intent := "optimize", signals := ["survived"] }) := by
  refine ⟨?_, ?_, ?_, ?_, ?_⟩
  · intro hdir
    unfold classify_intent
    rw [if_pos hdir]
  · intro hdir hsurv
    unfold classify_intent
    rw [if_neg (fun h => h hdir), if_pos hsurv]
  · intro hdir hsurv hpe
    unfold classify_intent
    rw [if_neg (fun h => h hdir), if_neg (by simp [hsurv]), if_pos hpe]
  · intro hdir hsurv hpe hplat
    unfold classify_intent
    rw [if_neg (fun h => h hdir), if_neg (by simp [hsurv]),
      if_neg (fun h => h hpe), if_pos hplat]
  · intro hdir hsurv hpe hplat
    unfold classify_intent
    rw [if_neg (fun h => h hdir), if_neg (by simp [hsurv]),
      if_neg (fun h => h hpe), if_neg (by simp [hplat])]

/-- Witness for `classify_intent_priority`: the spec's end-to-end examples —
with a directive the intent is adapt regardless of the crash; with the
directive cleared the same inputs give repair with the TypeError token
followed by the persistent error. -/
theorem classify_intent_priority_witness :
    classify_intent false true ["X"] [{ content := "TypeError: bad" }]
        "make a snake game" =
      { intent := "adapt", signals := ["directive: make a snake game"] } ∧
    classify_intent false true ["X"] [{ content := "TypeError: bad" }] "" =
      { intent := "repair", signals := ["TypeError", "X"] } := by
  constructor
  · have h := (classify_intent_priority false true ["X"]
        [{ content := "TypeError: bad" }] "make a snake game").1 (by decide)
    rw [h]
    decide
  · have h := ((classify_intent_priority false true ["X"]
        [{ content := "TypeError: bad" }] "").2.1) rfl rfl
    rw [h]
    decide

/-! ## Chat command dispatch — ring1/telegram_bot.py, `_handle_command`

`_handle_command` takes the first whitespace-delimited token of the
message, lowercases it, strips an optional at-botname suffix, and looks it
up in the `_COMMANDS` dict; `None` falls back to `_cmd_help`.  The model
returns the name of the handler method dispatched — the module's dispatch
has no other outcome (src's telegram_bot.py defines no Task type and no
task queue). -/

/-- Python `str.split()` with no arguments: split on whitespace runs,
dropping empty tokens. -/
def pySplitWsAux : List Char → List Char → List String
  | [], acc => if acc.isEmpty then [] else [String.mk acc.reverse]
  | c :: rest, acc =>
      if isPySpace c then
        if acc.isEmpty then pySplitWsAux rest []
        else String.mk acc.reverse :: pySplitWsAux rest []
      else pySplitWsAux rest (c :: acc)

/-- `str.split()`. -/
def pySplitWs (cs : List Char) : List String := pySplitWsAux cs []

/-- `str.lower()` (ASCII model). -/
def pyLower (s : String) : String := String.mk (s.toList.map Char.toLower)

/-- `cmd.split` on the at sign, first component: the prefix before the
first at sign. -/
def upToAt (s : String) : String :=
  String.mk (s.toList.takeWhile (fun c => !(c = '@')))

/-- The `_COMMANDS` dict mapping command verb to handler method name. -/
def botCommands : List (String × String) :=
  [("/status", "_cmd_status"), ("/history", "_cmd_history"),
   ("/top", "_cmd_top"), ("/code", "_cmd_code"), ("/pause", "_cmd_pause"),
   ("/resume", "_cmd_resume"), ("/kill", "_cmd_kill"), ("/help", "_cmd_help"),
   ("/start", "_cmd_help")]

/-- `_handle_command` resolved to the handler method name it dispatches. -/
def handle_command_method (text : String) : String :=
  let stripped := pyStripChars text.toList
  let cmd0 :=
    if stripped.isEmpty then "" else pyLower ((pySplitWs stripped).getD 0 "")
  let cmd := upToAt cmd0
  match botCommands.find? (fun kv => kv.1 == cmd) with
  | some kv => kv.2
  | none => "_cmd_help"

/-- C4 (code-bug evidence): an authorized free-text message whose first
token is no command verb is answered with the command list (`_cmd_help`
dispatch) — it is not enqueued as a task; src's telegram_bot.py has no
enqueue outcome at all.  The parsing itself (first token, lowercased,
at-botname suffix stripped) behaves as described. -/
theorem bot_free_text_gets_help :
    handle_command_method "make a snake game" = "_cmd_help" ∧
    handle_command_method "  Make a SNAKE game  " = "_cmd_help" ∧
    handle_command_method "/status@MyBot" = "_cmd_status" ∧
    handle_command_method "/STATUS extra words" = "_cmd_status" := by
  refine ⟨?_, ?_, ?_, ?_⟩ <;> decide

/-! ## Parameter generator — ring0/parameter_seed.py over CPython's
`random.Random`

`generate_params` seeds a fresh `random.Random(seed + generation)` and
draws `uniform(0.01, 0.50)`, `randint(2, 10)`, `randint(240, 360)` and
`uniform(0.1, 0.9)` in that order.  CPython's `Random` is the MT19937
generator seeded through `init_by_array` on the little-endian 32-bit words
of the absolute seed value; `uniform` is `a + (b-a)*random()` with
`random()` the 53-bit `genrand_res53`, and `randint(a, b)` is
`a + _randbelow(b+1-a)` where `_randbelow` draws `bit_length` bits and
rejects values that are too large.  All `uint32_t` arithmetic is Nat
arithmetic reduced modulo 2^32; floats are rationals (`genrand_res53` is
exact in double precision, so `random()` is modelled exactly; `uniform`
and `round` are modelled over ℚ).  The unbounded rejection loop of
`_randbelow` is given fuel, so the embedding returns an `Option`. -/

/-- `uint32_t` reduction. -/
def mask32 (x : Nat) : Nat := x % 4294967296

/-- The 624-word uint32 state array is packed little-endian into one Nat,
word `i` occupying bits `32*i` to `32*i + 31`; reading and writing a word
is plain arithmetic, which the kernel evaluates on big-number literals.
Read word `i`. -/
def mtGet (mt : Nat) (i : Nat) : Nat := (mt >>> (32 * i)) % 4294967296

/-- Write word `i` of the packed state. -/
def mtSet (mt : Nat) (i : Nat) (v : Nat) : Nat :=
  (mt % (2 ^ (32 * i))) + mask32 v * 2 ^ (32 * i) +
    ((mt >>> (32 * (i + 1))) <<< (32 * (i + 1)))

/-- MT19937 state: the packed 624-word array and the output index. -/
structure MTState where
  mt : Nat
  mti : Nat

/-- `init_genrand(s)`: fill the state array from a 32-bit seed. -/
def initGenrand (s : Nat) : Nat :=
  let mt0 := mtSet 0 0 (mask32 s)
  (List.range 623).foldl
    (fun mt idx =>
      let i := idx + 1
      let prev := mtGet mt (i - 1)
      mtSet mt i (mask32 (1812433253 * (prev ^^^ (prev >>> 30)) + i)))
    mt0

/-- First mixing loop of `init_by_array` (runs `max(624, len(key))`
times). -/
def ibaLoopOne (key : List Nat) : Nat → Nat → Nat → Nat → Nat × Nat
  | 0, mt, i, _ => (mt, i)
  | cnt + 1, mt, i, j =>
      let prev := mtGet mt (i - 1)
      let v := mask32
        ((mtGet mt i ^^^ mask32 ((prev ^^^ (prev >>> 30)) * 1664525)) +
          key.getD j 0 + j)
      let mt2 := mtSet mt i v
      let i2 := i + 1
      let st := if i2 ≥ 624 then (mtSet mt2 0 (mtGet mt2 623), 1) else (mt2, i2)
      let j2 := if j + 1 ≥ key.length then 0 else j + 1
      ibaLoopOne key cnt st.1 st.2 j2

/-- Second mixing loop of `init_by_array` (623 iterations); the uint32
subtraction of the index wraps modulo 2^32. -/
def ibaLoopTwo : Nat → Nat → Nat → Nat
  | 0, mt, _ => mt
  | cnt + 1, mt, i =>
      let prev := mtGet mt (i - 1)
      let v := mask32
        ((mtGet mt i ^^^ mask32 ((prev ^^^ (prev >>> 30)) * 1566083941)) +
          (4294967296 - mask32 i))
      let mt2 := mtSet mt i v
      let i2 := i + 1
      let st := if i2 ≥ 624 then (mtSet mt2 0 (mtGet mt2 623), 1) else (mt2, i2)
      ibaLoopTwo cnt st.1 st.2

/-- `init_by_array(key)`. -/
def initByArray (key : List Nat) : Nat :=
  let mt := initGenrand 19650218
  let st := ibaLoopOne key (max 624 key.length) mt 1 0
  let mt := ibaLoopTwo 623 st.1 st.2
  mtSet mt 0 0x80000000

/-- Little-endian base-2^32 digits of a Nat. -/
def natWords (n : Nat) : List Nat :=
  if h : n = 0 then []
  else (n % 4294967296) :: natWords (n / 4294967296)
termination_by n
decreasing_by exact Nat.div_lt_self (Nat.pos_of_ne_zero h) (by norm_num)

/-- CPython `random_seed` key for an int seed: the 32-bit words of its
absolute value (one zero word for 0). -/
def seedKey (a : Nat) : List Nat := if a = 0 then [0] else natWords a

/-- `random.Random(a)` for an int seed: `init_by_array` on the key, output
index at 624 so the first draw triggers a twist. -/
def mtInit (a : Nat) : MTState := { mt := initByArray (seedKey a), mti := 624 }

/-- One pass of the MT19937 twist (the in-place sequential form of the
reference three-loop version). -/
def twist (mt : Nat) : Nat :=
  (List.range 624).foldl
    (fun mt kk =>
      let y := (mtGet mt kk &&& 0x80000000) |||
        (mtGet mt ((kk + 1) % 624) &&& 0x7fffffff)
      let v := mtGet mt ((kk + 397) % 624) ^^^ (y >>> 1) ^^^
        (if y % 2 = 1 then 0x9908b0df else 0)
      mtSet mt kk (mask32 v))
    mt

/-- `genrand_uint32`: twist when the index is exhausted, then output the
tempered next word. -/
def genrandUint32 (s : MTState) : Nat × MTState :=
  let s1 := if s.mti ≥ 624 then { mt := twist s.mt, mti := 0 } else s
  let y0 := mtGet s1.mt s1.mti
  let y1 := mask32 (y0 ^^^ (y0 >>> 11))
  let y2 := mask32 (y1 ^^^ ((y1 <<< 7) &&& 0x9d2c5680))
  let y3 := mask32 (y2 ^^^ ((y2 <<< 15) &&& 0xefc60000))
  let y4 := mask32 (y3 ^^^ (y3 >>> 18))
  (y4, { mt := s1.mt, mti := s1.mti + 1 })

/-- `random()` = `genrand_res53`: a 53-bit rational in `[0, 1)`, exact in
double precision. -/
def randomRes53 (s : MTState) : ℚ × MTState :=
  let g1 := genrandUint32 s
  let g2 := genrandUint32 g1.2
  let a := g1.1 >>> 5
  let b := g2.1 >>> 6
  (((a * 67108864 + b : ℕ) : ℚ) / 9007199254740992, g2.2)

/-- `Random.uniform(lo, hi) = lo + (hi-lo)*random()`. -/
def pyUniform (lo hi : ℚ) (s : MTState) : ℚ × MTState :=
  let u := randomRes53 s
  (lo + (hi - lo) * u.1, u.2)

/-- `int.bit_length()`. -/
def bitLength (n : Nat) : Nat := if n = 0 then 0 else Nat.log2 n + 1

/-- `getrandbits(k)` for `k ≤ 32`: the top `k` bits of one output word. -/
def getrandbits (k : Nat) (s : MTState) : Nat × MTState :=
  let g := genrandUint32 s
  (g.1 >>> (32 - k), g.2)

/-- The rejection loop of `_randbelow_with_getrandbits`, with fuel standing
in for Python's unbounded `while`. -/
def randbelowLoop (n k : Nat) : Nat → MTState → Option (Nat × MTState)
  | 0, _ => none
  | fuel + 1, s =>
      let g := getrandbits k s
      if g.1 < n then some g
      else randbelowLoop n k fuel g.2

/-- `Random._randbelow(n)`. -/
def randbelow (n : Nat) (fuel : Nat) (s : MTState) : Option (Nat × MTState) :=
  if n = 0 then some (0, s)
  else randbelowLoop n (bitLength n) fuel s

/-- `Random.randint(a, b) = randrange(a, b+1) = a + _randbelow(b+1-a)`
(`ValueError` when the range is empty). -/
def pyRandint (a b : Int) (fuel : Nat) (s : MTState) : Option (Int × MTState) :=
  let width := b + 1 - a
  if width ≤ 0 then none
  else
    match randbelow width.toNat fuel s with
    | none => none
    | some g => some (a + (g.1 : Int), g.2)

/-- Round-half-to-even to an integer, as Python `round` resolves ties. -/
def roundHalfEven (x : ℚ) : ℤ :=
  let f := Int.floor x
  if x - f < 1/2 then f
  else if x - f > 1/2 then f + 1
  else if f % 2 = 0 then f else f + 1

/-- Python `round(x, 4)` over the rational model. -/
def pyRound4 (x : ℚ) : ℚ := (roundHalfEven (x * 10000) : ℚ) / 10000

/-- Fuel for the `_randbelow` rejection loop (Python loops unboundedly; 64
rejections in a row would already be astronomically unlikely). -/
def randFuel : Nat := 64

/-- The `EvolutionParams` named tuple. -/
structure EvolutionParams where
  generation : Int
  seed : Int
  mutation_rate : ℚ
  population_size : Int
  max_runtime_sec : Int
  crossover_rate : ℚ
  deriving DecidableEq, Repr

/-- The four draws of `generate_params`, from a given generator state. -/
def generateParamsFrom (generation seed : Int) (s0 : MTState) :
    Option EvolutionParams :=
  let u1 := pyUniform (1/100) (1/2) s0
  match pyRandint 2 10 randFuel u1.2 with
  | none => none
  | some ps =>
      match pyRandint 240 360 randFuel ps.2 with
      | none => none
      | some rt =>
          let u2 := pyUniform (1/10) (9/10) rt.2
          some { generation := generation, seed := seed,
                 mutation_rate := pyRound4 u1.1,
                 population_size := ps.1,
                 max_runtime_sec := rt.1,
                 crossover_rate := pyRound4 u2.1 }

/-- `generate_params(generation, seed)`: a fresh
`random.Random(seed + generation)` and the four draws in source order. -/
def generate_params (generation seed : Int) : Option EvolutionParams :=
  generateParamsFrom generation seed (mtInit (seed + generation).natAbs)

/-- A masked word is a 32-bit value. -/
theorem mask32_lt (x : Nat) : mask32 x < 4294967296 :=
  Nat.mod_lt _ (by norm_num)

/-- Every output of the generator is a 32-bit value (the tempering ends in
a uint32 reduction). -/
theorem genrandUint32_lt (s : MTState) : (genrandUint32 s).1 < 4294967296 := by
  dsimp only [genrandUint32]
  exact mask32_lt _

/-- `random()` lands in `[0, 1)`: the 53-bit numerator is below 2^53. -/
theorem randomRes53_mem (s : MTState) :
    0 ≤ (randomRes53 s).1 ∧ (randomRes53 s).1 < 1 := by
  dsimp only [randomRes53]
  constructor
  · positivity
  · rw [div_lt_one (by norm_num)]
    have ha : (genrandUint32 s).1 >>> 5 < 134217728 := by
      have h := genrandUint32_lt s
      rw [Nat.shiftRight_eq_div_pow]
      omega
    have hb : (genrandUint32 (genrandUint32 s).2).1 >>> 6 < 67108864 := by
      have h := genrandUint32_lt (genrandUint32 s).2
      rw [Nat.shiftRight_eq_div_pow]
      omega
    have hnum : (genrandUint32 s).1 >>> 5 * 67108864 +
        (genrandUint32 (genrandUint32 s).2).1 >>> 6 < 9007199254740992 := by
      have h1 : (genrandUint32 s).1 >>> 5 * 67108864 ≤ 134217727 * 67108864 :=
        Nat.mul_le_mul_right _ (by omega)
      omega
    exact_mod_cast hnum

/-- `uniform(lo, hi)` lands in `[lo, hi)` when `lo < hi`. -/
theorem pyUniform_mem (lo hi : ℚ) (hlh : lo < hi) (s : MTState) :
    lo ≤ (pyUniform lo hi s).1 ∧ (pyUniform lo hi s).1 < hi := by
  obtain ⟨h0, h1⟩ := randomRes53_mem s
  dsimp only [pyUniform]
  constructor
  · nlinarith
  · nlinarith

/-- The rejection loop only ever returns a value below its bound. -/
theorem randbelowLoop_lt :
    ∀ fuel n k (s : MTState) r s2,
      randbelowLoop n k fuel s = some (r, s2) → r < n := by
  intro fuel
  induction fuel with
  | zero =>
      intro n k s r s2 h
      simp [randbelowLoop] at h
  | succ m ih =>
      intro n k s r s2 h
      unfold randbelowLoop at h
      dsimp only at h
      by_cases hlt : (getrandbits k s).1 < n
      · rw [if_pos hlt] at h
        injection h with h2
        rw [h2] at hlt
        exact hlt
      · rw [if_neg hlt] at h
        exact ih n k _ r s2 h

/-- `_randbelow(n)` with `n > 0` only returns values below `n`. -/
theorem randbelow_lt (n fuel : Nat) (hn : 0 < n) (s : MTState) (r : Nat)
    (s2 : MTState) : randbelow n fuel s = some (r, s2) → r < n := by
  unfold randbelow
  rw [if_neg (Nat.pos_iff_ne_zero.mp hn)]
  exact randbelowLoop_lt fuel n _ s r s2

/-- `randint(a, b)` with `a ≤ b` only returns values in `[a, b]`. -/
theorem pyRandint_mem (a b : Int) (fuel : Nat) (s : MTState) (hab : a ≤ b) :
    ∀ v s2, pyRandint a b fuel s = some (v, s2) → a ≤ v ∧ v ≤ b := by
  intro v s2 h
  unfold pyRandint at h
  dsimp only at h
  rw [if_neg (by omega : ¬ b + 1 - a ≤ 0)] at h
  cases hrb : randbelow (b + 1 - a).toNat fuel s with
  | none => rw [hrb] at h; cases h
  | some grb =>
      rw [hrb] at h
      obtain ⟨r, s3⟩ := grb
      have hr : r < (b + 1 - a).toNat := randbelow_lt _ _ (by omega) s r s3 hrb
      injection h with h2
      have hv : v = a + (r : Int) := (congrArg Prod.fst h2).symm
      constructor <;> omega

/-- Round-half-even never goes below an integer lower bound of its
argument. -/
theorem roundHalfEven_ge (m : ℤ) (x : ℚ) (h : (m : ℚ) ≤ x) :
    m ≤ roundHalfEven x := by
  have hf : m ≤ Int.floor x := Int.le_floor.mpr h
  unfold roundHalfEven
  dsimp only
  split
  · exact hf
  · split
    · omega
    · split
      · exact hf
      · omega

/-- Round-half-even never exceeds an integer upper bound of its argument. -/
theorem roundHalfEven_le (M : ℤ) (x : ℚ) (h : x ≤ M) :
    roundHalfEven x ≤ M := by
  have hfM : Int.floor x ≤ M := by
    have := Int.floor_le_floor h
    rwa [Int.floor_intCast] at this
  have hfx : (Int.floor x : ℚ) ≤ x := Int.floor_le x
  unfold roundHalfEven
  dsimp only
  split
  · exact hfM
  · rename_i h1
    split
    · rename_i h2
      have hlt : (Int.floor x : ℚ) + 1/2 < (M : ℚ) := by linarith
      have : Int.floor x < M := by
        by_contra hc
        push_neg at hc
        have : (M : ℚ) ≤ (Int.floor x : ℚ) := by exact_mod_cast hc
        linarith
      omega
    · rename_i h2
      have heq : x - Int.floor x = 1/2 := by
        push_neg at h1 h2
        linarith
      have hle : (Int.floor x : ℚ) + 1/2 ≤ (M : ℚ) := by linarith
      have : Int.floor x < M := by
        by_contra hc
        push_neg at hc
        have : (M : ℚ) ≤ (Int.floor x : ℚ) := by exact_mod_cast hc
        linarith
      split
      · exact hfM
      · omega

/-- `round(x, 4)` keeps `x` between bounds that are multiples of 10^-4. -/
theorem pyRound4_mem (mlo Mhi : ℤ) (x : ℚ) (hlo : (mlo : ℚ)/10000 ≤ x)
    (hhi : x ≤ (Mhi : ℚ)/10000) :
    (mlo : ℚ)/10000 ≤ pyRound4 x ∧ pyRound4 x ≤ (Mhi : ℚ)/10000 := by
  have h1 : (mlo : ℚ) ≤ x * 10000 := by linarith
  have h2 : x * 10000 ≤ (Mhi : ℚ) := by linarith
  have g1 := roundHalfEven_ge mlo _ h1
  have g2 := roundHalfEven_le Mhi _ h2
  unfold pyRound4
  constructor
  · have hc : (mlo : ℚ) ≤ (roundHalfEven (x * 10000) : ℚ) := by exact_mod_cast g1
    linarith
  · have hc : ((roundHalfEven (x * 10000) : ℚ)) ≤ (Mhi : ℚ) := by exact_mod_cast g2
    linarith

/-- Range of every parameter set produced from any generator state. -/
theorem generateParamsFrom_in_range (g s : Int) (s0 : MTState) :
    ∀ p, generateParamsFrom g s s0 = some p →
      1/100 ≤ p.mutation_rate ∧ p.mutation_rate ≤ 1/2 ∧
      2 ≤ p.population_size ∧ p.population_size ≤ 10 ∧
      240 ≤ p.max_runtime_sec ∧ p.max_runtime_sec ≤ 360 ∧
      1/10 ≤ p.crossover_rate ∧ p.crossover_rate ≤ 9/10 := by
  intro p hp
  unfold generateParamsFrom at hp
  dsimp only at hp
  cases h1 : pyRandint 2 10 randFuel (pyUniform (1/100) (1/2) s0).2 with
  | none => rw [h1] at hp; cases hp
  | some ps =>
      rw [h1] at hp
      dsimp only at hp
      cases h2 : pyRandint 240 360 randFuel ps.2 with
      | none => rw [h2] at hp; cases hp
      | some rt =>
          rw [h2] at hp
          dsimp only at hp
          injection hp with hp2
          subst hp2
          obtain ⟨hm1, hm2⟩ := pyUniform_mem (1/100) (1/2) (by norm_num) s0
          obtain ⟨hc1, hc2⟩ := pyUniform_mem (1/10) (9/10) (by norm_num) rt.2
          have hmr := pyRound4_mem 100 5000 (pyUniform (1/100) (1/2) s0).1
            (by push_cast; linarith) (by push_cast; linarith)
          have hcr := pyRound4_mem 1000 9000 (pyUniform (1/10) (9/10) rt.2).1
            (by push_cast; linarith) (by push_cast; linarith)
          have hps := pyRandint_mem 2 10 randFuel
            (pyUniform (1/100) (1/2) s0).2 (by omega) ps.1 ps.2 (by rw [h1])
          have hrt := pyRandint_mem 240 360 randFuel ps.2 (by omega)
            rt.1 rt.2 (by rw [h2])
          refine ⟨?_, ?_, hps.1, hps.2, hrt.1, hrt.2, ?_, ?_⟩
          · have hb := hmr.1
            push_cast at hb
            linarith
          · have hb := hmr.2
            push_cast at hb
            linarith
          · have hb := hcr.1
            push_cast at hb
            linarith
          · have hb := hcr.2
            push_cast at hb
            linarith

/-- C9: `generate_params` is deterministic — it is a pure function of
`(generation, seed)`, seeding a fresh generator each call, so two calls are
bit-identical — and every returned parameter set satisfies the ranges:
mutation_rate in [0.01, 0.50] and crossover_rate in [0.1, 0.9] (uniform
draws rounded to 4 decimals), population_size in [2, 10] and
max_runtime_sec in [240, 360] (randint draws). -/
theorem generate_params_deterministic_in_range (g s : Int) :
    generate_params g s = generate_params g s ∧
    ∀ p, generate_params g s = some p →
      1/100 ≤ p.mutation_rate ∧ p.mutation_rate ≤ 1/2 ∧
      2 ≤ p.population_size ∧ p.population_size ≤ 10 ∧
      240 ≤ p.max_runtime_sec ∧ p.max_runtime_sec ≤ 360 ∧
      1/10 ≤ p.crossover_rate ∧ p.crossover_rate ≤ 9/10 :=
  ⟨rfl, fun p hp =>
    generateParamsFrom_in_range g s (mtInit (s + g).natAbs) p hp⟩

end Protea
